import Mathlib

/-!
Shallow embedding of the minion-backend scan orchestrator core
(src/minion/backend/tasks.py and the scan control view in
src/minion/backend/views/scans.py), together with theorems that settle the
claims about the scan workflow, the plugin-session runner, the state-update
tasks and the issue-status correlator. Timestamps are modelled as natural
numbers, mongo documents as Lean structures, and every state-queue task as an
explicit function on the document it patches.
-/

namespace Minion

/-- A failure object as the workers build it (a dict with hostname, message,
and an exception traceback which may be JSON null / Python None). -/
structure Failure where
  hostname : String
  message : String
  exception : Option String
deriving DecidableEq, Repr

/-- An issue document as the correlator touches it (tasks.py
set_status_issues): only the Status and OldStatus fields are read or written
there. -/
structure IssueDoc where
  Status : String
  OldStatus : String
deriving DecidableEq, Repr

/-- The issues collection, keyed by issue Id. It is modelled as a total map:
session_report_issue (tasks.py 183-194) inserts the issue document before
pushing its Id into the session, so every Id referenced by a session has a
document, and issues.update with an Id filter patches that document. -/
abbrev IssueDB := String → IssueDoc

/-- issues.update({Id: i}, {set: {Status: st, OldStatus: old}}). -/
def updateIssue (db : IssueDB) (i : String) (st old : String) : IssueDB :=
  fun j => if j = i then { Status := st, OldStatus := old } else db j

/-- The plugin descriptor of a session; the correlator matches sessions of two
scans by plugin.name (tasks.py 249). -/
structure PluginDesc where
  name : String
deriving DecidableEq, Repr

/-- A session document embedded in a scan, restricted to the fields the core
reads or writes: id, plugin descriptor, state, the ordered issue Id
references, and the terminal timestamp and failure. -/
structure Session where
  id : String
  plugin : PluginDesc
  state : String
  issues : List String := []
  finished : Option Nat := none
  failure : Option Failure := none
deriving DecidableEq, Repr

/-- A scan document restricted to the fields the core reads or writes. -/
structure ScanRec where
  id : String
  state : String
  created : Option Nat := none
  queued : Option Nat := none
  started : Option Nat := none
  finished : Option Nat := none
  sessions : List Session := []
  failure : Option Failure := none
deriving DecidableEq, Repr

/-- Update the first element satisfying the predicate, like a mongo update
with a positional operator: update({id: ..., sessions.id: sid}, {set:
{sessions.$...}}) patches the first matching array element. -/
def updateFirst {α : Type} (p : α → Bool) (f : α → α) : List α → List α
  | [] => []
  | x :: xs => if p x then f x :: xs else x :: updateFirst p f xs

/-- tasks.py session_finish (lines 201-211): unconditionally set the session
state and finished timestamp, and the failure field only when a failure is
given (if failure: is false for None). There is no guard on the session
already holding a terminal state. -/
def session_finish (scan : ScanRec) (session_id : String) (state : String)
    (t : Nat) (failure : Option Failure) : ScanRec :=
  let patch : Session → Session := fun s =>
    match failure with
    | some f => { s with state := state, finished := some t, failure := some f }
    | none => { s with state := state, finished := some t }
  { scan with sessions := updateFirst (fun s => s.id == session_id) patch scan.sessions }

/-- tasks.py scan_start (lines 55-59). -/
def scan_start (t : Nat) (sc : ScanRec) : ScanRec :=
  { sc with state := "STARTED", started := some t }

/-- tasks.py scan_finish (lines 61-111), restricted to its effect on the scan
record: set state and finished (and failure when one is given), then move the
sessions that the entry snapshot shows as CREATED to CANCELLED. The callback
post (lines 93-100) does not touch the record. -/
def scan_finish (st : String) (t : Nat) (failure : Option Failure)
    (sc : ScanRec) : ScanRec :=
  let sc1 : ScanRec :=
    match failure with
    | some f => { sc with state := st, finished := some t, failure := some f }
    | none => { sc with state := st, finished := some t }
  { sc1 with sessions := sc1.sessions.map (fun s =>
      if s.state = "CREATED" then { s with state := "CANCELLED" } else s) }

/-- tasks.py scan_stop (lines 124-154) on the scan record: set state STOPPED
and overwrite the started timestamp with the stop time (line 144), and move
every QUEUED or STARTED session to STOPPED stamping its finished time
(line 152). The task revocation does not touch the record. -/
def scan_stop (t : Nat) (sc : ScanRec) : ScanRec :=
  let sc1 : ScanRec := { sc with state := "STOPPED", started := some t }
  { sc1 with sessions := sc1.sessions.map (fun s =>
      if s.state = "QUEUED" ∨ s.state = "STARTED" then
        { s with state := "STOPPED", finished := some t }
      else s) }

/-- views/scans.py post_scan_create (lines 134-161): a fresh scan record in
state CREATED with only the created timestamp stamped. -/
def post_scan_create (t : Nat) (sid : String) (sessions : List Session) : ScanRec :=
  { id := sid, state := "CREATED", created := some t, queued := none,
    started := none, finished := none, sessions := sessions, failure := none }

/-- views/scans.py put_scan_control, START branch (lines 189-194): only a
CREATED scan moves to QUEUED with the queued timestamp stamped; any other
state is answered with an error and the record is untouched. -/
def put_scan_control_start (t : Nat) (sc : ScanRec) : ScanRec :=
  if sc.state = "CREATED" then { sc with state := "QUEUED", queued := some t }
  else sc

/-- views/scans.py put_scan_control, STOP branch (lines 196-198): with no
state guard at all, set state STOPPING and overwrite the queued timestamp
with the stop time, then enqueue scan_stop. -/
def put_scan_control_stop (t : Nat) (sc : ScanRec) : ScanRec :=
  { sc with state := "STOPPING", queued := some t }

/-!
The issue-status correlator, tasks.py set_status_issues (lines 213-276).
The task reads the scan with the given id and the list of scans for the same
target and plan ordered by created descending; last_scan L is the most recent
(the scan that just finished, so its id is the scan_id argument the pushes go
to) and second_to_last_scan P the previous one, when it exists. Both scans are
read once at entry, so the in-memory session lists are snapshots that the
scans.update pushes of the second pass do not modify.
-/

/-- Accumulator of the inner loop over last_scan sessions in the fix-detection
pass (tasks.py 246-253): the issue_found flag, the last_session_id variable,
and the Python loop variable session, which keeps its last assigned value
after the loop ends, namely the session at the break, or the final session of
the list when no break is taken. -/
structure FixSearch where
  issue_found : Bool
  last_session_id : Option String
  loopVar : Option Session
deriving DecidableEq, Repr

/-- One iteration of the inner loop (tasks.py 248-253): a session of the
latest scan matches when it runs the same plugin; a match records its id in
last_session_id, and when it also references the issue the loop breaks with
issue_found set. -/
def fixSearchStep (pname : String) (issue : String) (acc : FixSearch)
    (s : Session) : FixSearch :=
  if acc.issue_found then acc
  else if s.plugin.name = pname then
    if issue ∈ s.issues then
      { issue_found := true, last_session_id := some s.id, loopVar := some s }
    else
      { issue_found := false, last_session_id := some s.id, loopVar := some s }
  else
    { acc with loopVar := some s }

/-- The inner loop of the fix-detection pass over the sessions of the latest
scan, started from the initial assignments of tasks.py 246-247. -/
def fixSearch (pname : String) (issue : String) (L : List Session) : FixSearch :=
  L.foldl (fixSearchStep pname issue)
    { issue_found := false, last_session_id := none, loopVar := none }

/-- The body of the fix-detection pass for one issue referenced by a session
of the previous scan (tasks.py 246-269). Lsnap is the in-memory snapshot of
the latest scan that the loop reads; the first component of the state is the
persistent sessions array of the latest scan that receives the pushes. When
the matched session does not reference the issue, the issue is pushed into the
persistent session with the recorded id and its status is rewritten. The
source guards the Fixed status with session state is not FINISHED, where
session is the leaked loop variable (the last session the inner loop visited,
not necessarily the matched one) and is not compares by Python object
identity on a string literal, an accident the spec flags; the comparison is
modelled as string inequality here, which is the reading on which the source
can set Fixed at all. -/
def detectFixIssue (Lsnap : List Session) (pname : String)
    (st : List Session × IssueDB) (issue : String) : List Session × IssueDB :=
  let r := fixSearch pname issue Lsnap
  match r.last_session_id with
  | none => st
  | some l =>
    if r.issue_found then st
    else
      let pushed := updateFirst (fun s => s.id == l)
        (fun s => { s with issues := s.issues ++ [issue] }) st.1
      let old := st.2 issue
      let fixState :=
        if r.loopVar.map Session.state = some "FINISHED" then "Fixed"
        else old.Status
      (pushed, updateIssue st.2 issue fixState old.Status)

/-- The fix-detection pass (tasks.py 242-269): for each session of the
previous scan and each issue it references, in order. -/
def detectFixPass (Lsnap P : List Session) (start : List Session × IssueDB) :
    List Session × IssueDB :=
  P.foldl (fun st s2 => s2.issues.foldl (detectFixIssue Lsnap s2.plugin.name) st)
    start

/-- One iteration of the classification pass (tasks.py 226-240): an issue
referenced by the latest scan becomes Current; its OldStatus is its previous
Status when some session of the previous scan references it, and the dash
otherwise. -/
def classifyIssue (P : List Session) (db : IssueDB) (issue : String) : IssueDB :=
  if P.any (fun s2 => s2.issues.contains issue) then
    updateIssue db issue "Current" (db issue).Status
  else
    updateIssue db issue "Current" "-"

/-- The classification pass (tasks.py 224-240) over every issue referenced by
every session of the latest scan, in order. -/
def classifyPass (L P : List Session) (db : IssueDB) : IssueDB :=
  L.foldl (fun db1 s => s.issues.foldl (classifyIssue P) db1) db

/-- tasks.py set_status_issues, the branch with a previous scan
(lines 219-269): the classification pass over the latest scan L, then the
fix-detection pass over the previous scan P. L is both the snapshot the loops
read and the initial value of the persistent sessions array of the latest
scan; the result is that persistent array together with the updated issues
collection. -/
def set_status_issues (L P : List Session) (db : IssueDB) :
    List Session × IssueDB :=
  detectFixPass L P (L, classifyPass L P db)

/-- tasks.py set_status_issues when the latest scan is the only scan for its
target and plan (lines 271-276): every referenced issue becomes Current with
OldStatus the dash. -/
def set_status_issues_first (L : List Session) (db : IssueDB) : IssueDB :=
  L.foldl (fun db1 s => s.issues.foldl (fun db2 i => updateIssue db2 i "Current" "-") db1) db

/-!
The plugin-session runner, tasks.py run_plugin (lines 429-588). The child's
stdout is modelled as the list of parsed lines the reader thread queues; the
None sentinel the thread enqueues at EOF is the end of the list. The effects
on the repository are the state-queue jobs the runner sends, collected in
order, and the Python return value of the task.
-/

/-- The session terminal states a finish message may carry (tasks.py 542). -/
def terminalStates : List String :=
  ["FINISHED", "FAILED", "STOPPED", "TERMINATED", "TIMEOUT", "ABORTED"]

/-- The failure entry of a finish message data object: the key may be absent,
hold JSON null, or hold a failure object. Reading data at failure when the
key is absent raises KeyError (tasks.py 544 indexes it unconditionally). -/
inductive FailureField where
  | absent
  | null
  | val (f : Failure)
deriving DecidableEq, Repr

/-- One line of plugin stdout after parsing (tasks.py 521-545). malformed
stands for a line whose json.loads or required key access raises, which
escapes the message loop to the handler at line 568. A message whose msg tag
is none of the four known ones falls through every branch like progress. -/
inductive Msg where
  | issue (data : String)
  | progress
  | artifact (data : String)
  | finish (state : String) (failure : FailureField)
  | malformed
deriving DecidableEq, Repr

/-- A state-queue job sent by run_plugin through send_task, with the
arguments the claims are about (the wall-clock argument is omitted). -/
inductive StateWrite where
  | session_start (scan_id session_id : String)
  | session_report_issue (scan_id session_id : String) (data : String)
  | session_report_artifact (scan_id session_id : String) (data : String)
  | session_finish (scan_id session_id : String) (state : String) (failure : Option Failure)
  | set_status_issues (scan_id : String)
deriving DecidableEq, Repr

/-- How the message loop of run_plugin ends: the reader queue yielded the EOF
sentinel and the loop broke with the recorded finished value; the early
return at line 519 on a message after a finish; or an exception escaping to
the handler at line 568. -/
inductive RunOutcome where
  | completed (finished : Option String)
  | earlyReturn
  | raised (message : String)
deriving DecidableEq, Repr

/-- The message loop of run_plugin (tasks.py 509-548) over the parsed lines,
returning the state-queue writes it sends and how it ends. finished holds
msg data state as soon as a finish message is seen (line 541), whether or not
that state is terminal; any further message hits the guard at line 517 and
the task returns at once with no value. A finish with a terminal state sends
session_finish with the data failure entry (line 543-545), raising KeyError
when the entry is absent; JSON null reaches session_finish as None. -/
def processMessages (scan_id session_id : String) :
    List Msg → Option String → List StateWrite × RunOutcome
  | [], finished => ([], .completed finished)
  | _ :: _, some _ => ([], .earlyReturn)
  | m :: rest, none =>
    match m with
    | .malformed => ([], .raised "ValueError: invalid message line")
    | .issue d =>
      let r := processMessages scan_id session_id rest none
      (.session_report_issue scan_id session_id d :: r.1, r.2)
    | .progress => processMessages scan_id session_id rest none
    | .artifact d =>
      let r := processMessages scan_id session_id rest none
      (.session_report_artifact scan_id session_id d :: r.1, r.2)
    | .finish st fl =>
      if st ∈ terminalStates then
        match fl with
        | .absent => ([], .raised "KeyError: failure")
        | .null =>
          let r := processMessages scan_id session_id rest (some st)
          (.session_finish scan_id session_id st none :: r.1, r.2)
        | .val f =>
          let r := processMessages scan_id session_id rest (some st)
          (.session_finish scan_id session_id st (some f) :: r.1, r.2)
      else
        processMessages scan_id session_id rest (some st)

/-- tasks.py find_session (lines 423-426). -/
def find_session (scan : ScanRec) (session_id : String) : Option Session :=
  scan.sessions.find? (fun s => s.id == session_id)

/-- The run_plugin task (tasks.py 429-588): the pre-flight guards on the scan
and session states, the session_start write, the message loop, the
synthesised FAILED write when the loop ended with no usable finish (line 554,
if not finished: catches both None and the empty string), the correlator
trigger, and the returned state. The scan argument is none when the scan
cannot be loaded. A raised outcome takes the except branch at line 568, which
writes a FAILED session_finish whose message is the exception text and whose
exception field stands for the traceback, and returns FAILED. The early
return at line 519 is a bare return: no further write is sent and the task
returns None. -/
def run_plugin (scan : Option ScanRec) (session_id hostname : String)
    (msgs : List Msg) : List StateWrite × Option String :=
  match scan with
  | none => ([], none)
  | some sc =>
    if sc.state = "STOPPING" ∨ sc.state = "STOPPED" then ([], none)
    else if sc.state ≠ "STARTED" then ([], none)
    else
      match find_session sc session_id with
      | none => ([], none)
      | some sess =>
        if sess.state ≠ "QUEUED" then ([], none)
        else
          let r := processMessages sc.id session_id msgs none
          let start := StateWrite.session_start sc.id session_id
          match r.2 with
          | .earlyReturn => (start :: r.1, none)
          | .raised m =>
            (start :: r.1 ++ [StateWrite.session_finish sc.id session_id "FAILED"
              (some { hostname := hostname, message := m, exception := some m })],
             some "FAILED")
          | .completed finished =>
            let ws2 :=
              if finished = none ∨ finished = some "" then
                r.1 ++ [StateWrite.session_finish sc.id session_id "FAILED"
                  (some { hostname := hostname,
                          message := "The plugin did not finish correctly",
                          exception := none })]
              else r.1
            (start :: ws2 ++ [StateWrite.set_status_issues sc.id], finished)

/-!
The scan workflow task, tasks.py scan (lines 615-772).
-/

/-- tasks.py scan_finish as it acts on the scans collection: the task finds
the record first and returns when there is none (lines 70-73), otherwise it
patches the first record with the id. -/
def scan_finish_db (db : List ScanRec) (scan_id : String) (st : String)
    (t : Nat) (failure : Option Failure) : List ScanRec :=
  match db.find? (fun s => s.id == scan_id) with
  | none => db
  | some _ => updateFirst (fun s => s.id == scan_id) (scan_finish st t failure) db

/-- The scan task (tasks.py 615-772) up to its guards, abstracted over the
body (lines 637-751, admission checks and session dispatch), which runs only
when the scan exists in state QUEUED. When no record has the id, the scans
view answers success False with no scan entry, so get_scan (lines 601-605)
raises KeyError on j at scan; the handler at line 753 then attempts
scan_finish FAILED with a captured failure, and scan_finish finds no record
and returns. A scan in any other state is logged and the task returns
(lines 633-635). -/
def scanTask (db : List ScanRec) (scan_id : String) (t : Nat)
    (hostname : String) (body : List ScanRec → ScanRec → List ScanRec) :
    List ScanRec :=
  match db.find? (fun s => s.id == scan_id) with
  | none =>
    scan_finish_db db scan_id "FAILED" t
      (some { hostname := hostname, message := "KeyError: scan",
              exception := some "KeyError: scan" })
  | some sc =>
    if sc.state ≠ "QUEUED" then db
    else body db sc

/-- The first session result that stops the whole scan (tasks.py 718-733):
the dispatch loop finishes the scan at once with the first ABORTED or STOPPED
plugin result, and later sessions never run. A revoked wait surfaces as a
STOPPED result (lines 707-710). -/
def firstStopResult : List String → Option String
  | [] => none
  | r :: rest =>
    if r = "ABORTED" ∨ r = "STOPPED" then some r else firstStopResult rest

/-- The terminal state the scan task records, as a function of the states its
sessions would return in dispatch order (tasks.py 679-751): the first ABORTED
or STOPPED result wins at once; otherwise the scan is FAILED when some
session result was FAILED (lines 744-746) and FINISHED otherwise. -/
def scanClassify (results : List String) : String :=
  match firstStopResult results with
  | some r => r
  | none => if "FAILED" ∈ results then "FAILED" else "FINISHED"

/-!
Helper lemmas.
-/

theorem find?_updateFirst {α : Type} (p : α → Bool) (f : α → α)
    (hpf : ∀ a, p a = true → p (f a) = true) :
    ∀ (l : List α) (x : α), l.find? p = some x →
      (updateFirst p f l).find? p = some (f x) := by
  intro l
  induction l with
  | nil => intro x hx; simp [List.find?] at hx
  | cons a l ih =>
    intro x hx
    by_cases hpa : p a = true
    · rw [List.find?_cons_of_pos _ hpa] at hx
      injection hx with hx; subst hx
      simp [updateFirst, hpa, List.find?_cons_of_pos _ (hpf a hpa)]
    · rw [List.find?_cons_of_neg _ (by simpa using hpa)] at hx
      simp only [updateFirst, if_neg hpa]
      rw [List.find?_cons_of_neg _ (by simpa using hpa)]
      exact ih x hx

theorem firstStopResult_eq_none (results : List String)
    (ha : "ABORTED" ∉ results) (hs : "STOPPED" ∉ results) :
    firstStopResult results = none := by
  induction results with
  | nil => rfl
  | cons r rest ih =>
    simp only [List.mem_cons, not_or] at ha hs
    have : ¬ (r = "ABORTED" ∨ r = "STOPPED") := by
      rintro (h | h)
      · exact ha.1 h.symm
      · exact hs.1 h.symm
    simp [firstStopResult, this, ih ha.2 hs.2]

/-!
Claim C3: scan completion classification.
-/

/-- Claim C3, counterexample. The claim states the precedence
ABORTED above STOPPED when both terminal classifications apply, but the
dispatch loop finishes the scan with the first ABORTED or STOPPED session
result it meets: with session results STOPPED then ABORTED the recorded scan
state is STOPPED, not ABORTED. -/
theorem c3_counterexample :
    "ABORTED" ∈ ["STOPPED", "ABORTED"] ∧
    scanClassify ["STOPPED", "ABORTED"] = "STOPPED" ∧
    scanClassify ["STOPPED", "ABORTED"] ≠ "ABORTED" := by decide

/-- Claim C3, amended. When no session result was ABORTED or STOPPED the
scan's terminal state is FAILED if any session ended FAILED and FINISHED
otherwise; when some session result is ABORTED or STOPPED, the scan's
terminal state is the first such result in dispatch order (the scan finishes
at once and later sessions never run), which takes precedence over FAILED
and FINISHED, while between ABORTED and STOPPED the earlier occurrence wins
rather than ABORTED over STOPPED. -/
theorem c3_amended (results : List String) :
    ("ABORTED" ∉ results → "STOPPED" ∉ results →
      scanClassify results = if "FAILED" ∈ results then "FAILED" else "FINISHED")
    ∧ (∀ pre r rest, results = pre ++ r :: rest →
        (r = "ABORTED" ∨ r = "STOPPED") →
        (∀ x ∈ pre, x ≠ "ABORTED" ∧ x ≠ "STOPPED") →
        scanClassify results = r) := by
  constructor
  · intro ha hs
    simp [scanClassify, firstStopResult_eq_none results ha hs]
  · intro pre r rest hres hr hpre
    subst hres
    have hfsr : firstStopResult (pre ++ r :: rest) = some r := by
      induction pre with
      | nil => simp [firstStopResult, hr]
      | cons x pre ih =>
        have hx := hpre x (by simp)
        have hnot : ¬ (x = "ABORTED" ∨ x = "STOPPED") := by
          rintro (h | h)
          · exact hx.1 h
          · exact hx.2 h
        simpa [firstStopResult, hnot] using ih (fun y hy => hpre y (by simp [hy]))
    simp [scanClassify, hfsr]

/-- Claim C3, witness for the amended theorem: a FAILED result with no
stopping result classifies the scan FAILED, and a STOPPED result ends the
scan STOPPED even after an earlier FAILED session. -/
theorem c3_amended_witness :
    scanClassify ["FAILED", "FINISHED"] = "FAILED" ∧
    scanClassify ["FAILED", "STOPPED"] = "STOPPED" := by
  constructor
  · have h := (c3_amended ["FAILED", "FINISHED"]).1 (by decide) (by decide)
    simpa using h
  · exact (c3_amended ["FAILED", "STOPPED"]).2 ["FAILED"] "STOPPED" [] rfl
      (Or.inr rfl) (by decide)

/-!
Claim C6: the scan task without a scan in state QUEUED has no side effect on
the scan record.
-/

/-- Claim C6: for every invocation of the scan task where the scan is not
found, or where its state is not QUEUED, the record store is unchanged: a
missing scan makes get_scan raise and the handler's scan_finish attempt finds
no record, and a scan in another state is logged and the task returns before
any write. -/
theorem c6_no_side_effect (db : List ScanRec) (scan_id : String) (t : Nat)
    (hostname : String) (body : List ScanRec → ScanRec → List ScanRec)
    (h : ∀ sc, db.find? (fun s => s.id == scan_id) = some sc → sc.state ≠ "QUEUED") :
    scanTask db scan_id t hostname body = db := by
  unfold scanTask
  cases hfind : db.find? (fun s => s.id == scan_id) with
  | none => simp [scan_finish_db, hfind]
  | some sc => simp [h sc hfind]

/-- Claim C6, witness: a store holding one STARTED scan is untouched both
when the task is invoked on that scan and when it is invoked on an unknown
id, even under a body that would empty the store. -/
theorem c6_no_side_effect_witness :
    scanTask [{ id := "s1", state := "STARTED" }] "s1" 9 "h" (fun _ _ => []) =
      [{ id := "s1", state := "STARTED" }] ∧
    scanTask [{ id := "s1", state := "STARTED" }] "zz" 9 "h" (fun _ _ => []) =
      [{ id := "s1", state := "STARTED" }] := by
  constructor
  · exact c6_no_side_effect _ _ _ _ _ (by decide)
  · exact c6_no_side_effect _ _ _ _ _ (by decide)

/-!
Claim C8: monotonicity of the scan timestamps.
-/

/-- Claim C8, failing run. The stop path does not keep the timestamps
monotonic: on STOP the controller overwrites the queued timestamp
(views/scans.py 197) and scan_stop overwrites the started timestamp
(tasks.py 144), so stopping a scan that already finished at time 3 leaves
started = 5 and queued = 4 above finished = 3, and the record is terminal so
nothing repairs it. -/
theorem c8_code_bug_eval :
    (scan_stop 5 (put_scan_control_stop 4 (scan_finish "FINISHED" 3 none
        (scan_start 2 (put_scan_control_start 1 (post_scan_create 0 "scan1" [])))))).created = some 0 ∧
    (scan_stop 5 (put_scan_control_stop 4 (scan_finish "FINISHED" 3 none
        (scan_start 2 (put_scan_control_start 1 (post_scan_create 0 "scan1" [])))))).queued = some 4 ∧
    (scan_stop 5 (put_scan_control_stop 4 (scan_finish "FINISHED" 3 none
        (scan_start 2 (put_scan_control_start 1 (post_scan_create 0 "scan1" [])))))).started = some 5 ∧
    (scan_stop 5 (put_scan_control_stop 4 (scan_finish "FINISHED" 3 none
        (scan_start 2 (put_scan_control_start 1 (post_scan_create 0 "scan1" [])))))).finished = some 3 ∧
    ¬ (5 ≤ 3) := by decide

/-!
Claim C9: session_finish on an already terminal session.
-/

/-- Claim C9, counterexample. session_finish carries no guard: writing
STOPPED at time 2 to a session that already holds FINISHED at time 1
replaces both the state and the timestamp instead of being a no-op. -/
theorem c9_counterexample :
    (session_finish
        { id := "sc", state := "FINISHED",
          sessions := [{ id := "s1", plugin := { name := "a" },
                         state := "FINISHED", finished := some 1 }] }
        "s1" "STOPPED" 2 none).sessions =
      [{ id := "s1", plugin := { name := "a" },
         state := "STOPPED", finished := some 2 }] := by decide

/-- Claim C9, amended: session_finish overwrites unconditionally, so a later
terminal write replaces the session's earlier terminal state, timestamp and
failure with its own. -/
theorem c9_amended (scan : ScanRec) (sid : String) (st1 : String) (t1 : Nat)
    (f1 : Failure) (st2 : String) (t2 : Nat) (f2 : Failure) (s0 : Session)
    (h : scan.sessions.find? (fun s => s.id == sid) = some s0) :
    (session_finish (session_finish scan sid st1 t1 (some f1)) sid st2 t2
        (some f2)).sessions.find? (fun s => s.id == sid) =
      some { s0 with state := st2, finished := some t2, failure := some f2 } := by
  have hid : ∀ a : Session, (a.id == sid) = true →
      ((({ a with state := st1, finished := some t1, failure := some f1 } : Session)).id == sid) = true := by
    intro a ha; simpa using ha
  have h1 := find?_updateFirst (fun s : Session => s.id == sid)
    (fun s => { s with state := st1, finished := some t1, failure := some f1 }) hid
    scan.sessions s0 h
  have hid2 : ∀ a : Session, (a.id == sid) = true →
      ((({ a with state := st2, finished := some t2, failure := some f2 } : Session)).id == sid) = true := by
    intro a ha; simpa using ha
  have h2 := find?_updateFirst (fun s : Session => s.id == sid)
    (fun s => { s with state := st2, finished := some t2, failure := some f2 }) hid2
    (updateFirst (fun s : Session => s.id == sid)
      (fun s => { s with state := st1, finished := some t1, failure := some f1 })
      scan.sessions)
    _ h1
  simpa [session_finish] using h2

/-- Claim C9, witness for the amended theorem: a second terminal write on a
concrete one-session scan replaces the FINISHED record written first. -/
theorem c9_amended_witness :
    (session_finish (session_finish
        { id := "sc", state := "STARTED",
          sessions := [{ id := "s1", plugin := { name := "a" }, state := "STARTED" }] }
        "s1" "FINISHED" 1 (some { hostname := "h", message := "a", exception := none }))
        "s1" "STOPPED" 2
        (some { hostname := "h", message := "b", exception := none })).sessions.find?
      (fun s => s.id == "s1") =
      some { id := "s1", plugin := { name := "a" }, state := "STOPPED",
             finished := some 2,
             failure := some { hostname := "h", message := "b", exception := none } } := by
  exact c9_amended _ "s1" "FINISHED" 1 _ "STOPPED" 2 _
    { id := "s1", plugin := { name := "a" }, state := "STARTED" } (by decide)

/-!
Lemmas about the run_plugin message loop.
-/

theorem processMessages_append (scid sid : String) :
    ∀ (xs ys : List Msg) (f0 : Option String) (ws : List StateWrite)
      (f1 : Option String),
      processMessages scid sid xs f0 = (ws, .completed f1) →
      processMessages scid sid (xs ++ ys) f0 =
        (ws ++ (processMessages scid sid ys f1).1,
         (processMessages scid sid ys f1).2) := by
  intro xs
  induction xs with
  | nil =>
    intro ys f0 ws f1 h
    simp only [processMessages] at h
    injection h with h1 h2
    injection h2 with h2
    subst h1; subst h2
    simp [processMessages]
  | cons m rest ih =>
    intro ys f0 ws f1 h
    cases f0 with
    | some s => simp [processMessages] at h
    | none =>
      cases m with
      | malformed => simp [processMessages] at h
      | issue d =>
        simp only [processMessages] at h ⊢
        obtain ⟨h1, h2⟩ := Prod.mk.injEq _ _ _ _ ▸ h
        simp only [List.append_eq]
        rw [ih ys none _ f1 (by rw [Prod.ext_iff]; exact ⟨rfl, h2⟩)]
        simp [← h1]
      | progress =>
        simp only [processMessages] at h ⊢
        exact ih ys none ws f1 h
      | artifact d =>
        simp only [processMessages] at h ⊢
        obtain ⟨h1, h2⟩ := Prod.mk.injEq _ _ _ _ ▸ h
        simp only [List.append_eq]
        rw [ih ys none _ f1 (by rw [Prod.ext_iff]; exact ⟨rfl, h2⟩)]
        simp [← h1]
      | finish st fl =>
        by_cases hst : st ∈ terminalStates
        · cases fl with
          | absent => simp [processMessages, hst] at h
          | null =>
            simp only [processMessages, if_pos hst] at h ⊢
            obtain ⟨h1, h2⟩ := Prod.mk.injEq _ _ _ _ ▸ h
            simp only [List.append_eq]
            rw [ih ys (some st) _ f1 (by rw [Prod.ext_iff]; exact ⟨rfl, h2⟩)]
            simp [← h1]
          | val f =>
            simp only [processMessages, if_pos hst] at h ⊢
            obtain ⟨h1, h2⟩ := Prod.mk.injEq _ _ _ _ ▸ h
            simp only [List.append_eq]
            rw [ih ys (some st) _ f1 (by rw [Prod.ext_iff]; exact ⟨rfl, h2⟩)]
            simp [← h1]
        · simp only [processMessages, if_neg hst] at h ⊢
          exact ih ys (some st) ws f1 h

theorem processMessages_no_finish (scid sid : String) :
    ∀ (msgs : List Msg),
      (∀ m ∈ msgs, (∀ st fl, m ≠ Msg.finish st fl) ∧ m ≠ Msg.malformed) →
      (processMessages scid sid msgs none).2 = .completed none := by
  intro msgs
  induction msgs with
  | nil => intro _; rfl
  | cons m rest ih =>
    intro h
    have hm := h m (by simp)
    have hrest := ih (fun x hx => h x (by simp [hx]))
    cases m with
    | malformed => exact absurd rfl hm.2
    | finish st fl => exact absurd rfl (hm.1 st fl)
    | issue d => simpa [processMessages] using hrest
    | progress => simpa [processMessages] using hrest
    | artifact d => simpa [processMessages] using hrest

theorem processMessages_completed_none_writes (scid sid : String) :
    ∀ (msgs : List Msg) (ws : List StateWrite),
      processMessages scid sid msgs none = (ws, .completed none) →
      ∀ a b s f, StateWrite.session_finish a b s f ∉ ws := by
  intro msgs
  induction msgs with
  | nil =>
    intro ws h
    simp only [processMessages] at h
    injection h with h1 _
    subst h1; intro a b s f; simp
  | cons m rest ih =>
    intro ws h
    cases m with
    | malformed => simp [processMessages] at h
    | issue d =>
      simp only [processMessages] at h
      obtain ⟨h1, h2⟩ := Prod.mk.injEq _ _ _ _ ▸ h
      intro a b s f
      rw [← h1]
      simp only [List.mem_cons, not_or]
      exact ⟨by simp, ih _ (by rw [Prod.ext_iff]; exact ⟨rfl, h2⟩) a b s f⟩
    | progress =>
      simp only [processMessages] at h
      exact ih ws h
    | artifact d =>
      simp only [processMessages] at h
      obtain ⟨h1, h2⟩ := Prod.mk.injEq _ _ _ _ ▸ h
      intro a b s f
      rw [← h1]
      simp only [List.mem_cons, not_or]
      exact ⟨by simp, ih _ (by rw [Prod.ext_iff]; exact ⟨rfl, h2⟩) a b s f⟩
    | finish st fl =>
      by_cases hst : st ∈ terminalStates
      · cases fl with
        | absent => simp [processMessages, hst] at h
        | null =>
          simp only [processMessages, if_pos hst] at h
          obtain ⟨h1, h2⟩ := Prod.mk.injEq _ _ _ _ ▸ h
          exfalso
          cases rest with
          | nil => simp [processMessages] at h2
          | cons x xs => simp [processMessages] at h2
        | val f0 =>
          simp only [processMessages, if_pos hst] at h
          obtain ⟨h1, h2⟩ := Prod.mk.injEq _ _ _ _ ▸ h
          exfalso
          cases rest with
          | nil => simp [processMessages] at h2
          | cons x xs => simp [processMessages] at h2
      · simp only [processMessages, if_neg hst] at h
        exfalso
        cases rest with
        | nil =>
          simp only [processMessages] at h
          injection h with _ h2
          simp at h2
        | cons x xs => simp [processMessages] at h

/-- A scan in the state the run_plugin pre-flight expects, with one QUEUED
session, used as concrete input by several closed theorems. -/
def exampleScan : ScanRec :=
  { id := "sc", state := "STARTED",
    sessions := [{ id := "s1", plugin := { name := "a" }, state := "QUEUED" }] }

/-!
Claim C5: a plugin that never emits finish gets the synthesised FAILED
terminal write.
-/

/-- Claim C5, counterexample. The claim quantifies over every child that
exits without emitting a finish message, but a child whose output is one
unparseable line is such a child and does not get the synthesised failure
object: json.loads raises past the message loop to the handler at
tasks.py 568-584, which writes FAILED with the exception text and a
traceback, and the fallback at line 554 is never reached. -/
theorem c5_counterexample :
    run_plugin (some exampleScan) "s1" "h" [Msg.malformed] =
      ([StateWrite.session_start "sc" "s1",
        StateWrite.session_finish "sc" "s1" "FAILED"
          (some { hostname := "h", message := "ValueError: invalid message line",
                  exception := some "ValueError: invalid message line" })],
       some "FAILED") ∧
    StateWrite.session_finish "sc" "s1" "FAILED"
        (some { hostname := "h",
                message := "The plugin did not finish correctly",
                exception := none })
      ∉ (run_plugin (some exampleScan) "s1" "h" [Msg.malformed]).1 := by decide

/-- Claim C5, amended: when the child's whole output contains no finish
message and every line parses, the loop ends with finished still None and
run_plugin sends session_finish FAILED with the synthesised failure object
whose hostname is the worker's, whose message is the fixed text, and whose
exception entry is None; a child whose output includes an unparseable line is
instead marked FAILED through the exception handler with the exception text
as the failure. -/
theorem c5_no_finish_failed (sc : ScanRec) (sess : Session)
    (sid hostname : String) (msgs : List Msg)
    (hscan : sc.state = "STARTED")
    (hfind : find_session sc sid = some sess)
    (hq : sess.state = "QUEUED")
    (hmsgs : ∀ m ∈ msgs, (∀ st fl, m ≠ Msg.finish st fl) ∧ m ≠ Msg.malformed) :
    StateWrite.session_finish sc.id sid "FAILED"
        (some { hostname := hostname,
                message := "The plugin did not finish correctly",
                exception := none })
      ∈ (run_plugin (some sc) sid hostname msgs).1 := by
  have h2 := processMessages_no_finish sc.id sid msgs hmsgs
  rcases hpm : processMessages sc.id sid msgs none with ⟨ws, o⟩
  rw [hpm] at h2
  simp only at h2
  subst h2
  simp [run_plugin, hscan, hfind, hq, hpm]

/-- Claim C5, witness for the amended theorem: a plugin emitting a single
well-formed issue line and exiting leaves the synthesised FAILED write among
the state-queue jobs. -/
theorem c5_no_finish_failed_witness :
    StateWrite.session_finish "sc" "s1" "FAILED"
        (some { hostname := "h",
                message := "The plugin did not finish correctly",
                exception := none })
      ∈ (run_plugin (some exampleScan) "s1" "h" [Msg.issue "d"]).1 := by
  have h := c5_no_finish_failed exampleScan
    { id := "s1", plugin := { name := "a" }, state := "QUEUED" }
    "s1" "h" [Msg.issue "d"] rfl (by decide) rfl (by simp)
  simpa using h

/-!
Claim C2: messages after a finish.
-/

/-- Claim C2, counterexample. The guard at tasks.py 517-519 does not discard
the extra message and keep draining: it returns from the task at once. With
a plugin that emits finish FINISHED and then one extra issue, run_plugin
returns None rather than the recorded state FINISHED, processes nothing
further, and never reaches the correlator trigger (nor the wait on the
child). The finish write itself was already sent and stands. -/
theorem c2_counterexample :
    run_plugin (some exampleScan) "s1" "h"
        [Msg.finish "FINISHED" FailureField.null, Msg.issue "X"] =
      ([StateWrite.session_start "sc" "s1",
        StateWrite.session_finish "sc" "s1" "FINISHED" none], none) ∧
    (run_plugin (some exampleScan) "s1" "h"
        [Msg.finish "FINISHED" FailureField.null, Msg.issue "X"]).2 ≠ some "FINISHED" ∧
    StateWrite.set_status_issues "sc" ∉
      (run_plugin (some exampleScan) "s1" "h"
        [Msg.finish "FINISHED" FailureField.null, Msg.issue "X"]).1 := by decide

/-- Claim C2, amended: any message received after a finish makes run_plugin
log the protocol error and return immediately with no value: the extra
message and everything after it are discarded unprocessed, no further write
is sent (in particular the correlator is not triggered), and the session
keeps the terminal state already written for the finish, but run_plugin does
not return the recorded state. -/
theorem c2_amended (sc : ScanRec) (sess : Session) (sid hostname : String)
    (ms1 : List Msg) (m : Msg) (ms2 : List Msg) (ws : List StateWrite)
    (st : String)
    (hscan : sc.state = "STARTED")
    (hfind : find_session sc sid = some sess)
    (hq : sess.state = "QUEUED")
    (hpre : processMessages sc.id sid ms1 none = (ws, .completed (some st))) :
    run_plugin (some sc) sid hostname (ms1 ++ m :: ms2) =
      (StateWrite.session_start sc.id sid :: ws, none) := by
  have happ := processMessages_append sc.id sid ms1 (m :: ms2) none ws (some st) hpre
  have hrest : processMessages sc.id sid (m :: ms2) (some st) = ([], .earlyReturn) := by
    simp [processMessages]
  rw [hrest] at happ
  simp only [List.append_nil] at happ
  simp [run_plugin, hscan, hfind, hq, happ]

/-- Claim C2, witness for the amended theorem: a finish followed by one issue
yields exactly the session_start and the finish write, and the return value
None. -/
theorem c2_amended_witness :
    run_plugin (some exampleScan) "s1" "h"
        [Msg.finish "STOPPED" FailureField.null, Msg.issue "X"] =
      ([StateWrite.session_start "sc" "s1",
        StateWrite.session_finish "sc" "s1" "STOPPED" none], none) := by
  have h := c2_amended exampleScan
    { id := "s1", plugin := { name := "a" }, state := "QUEUED" }
    "s1" "h" [Msg.finish "STOPPED" FailureField.null] (Msg.issue "X") []
    [StateWrite.session_finish "sc" "s1" "STOPPED" none] "STOPPED"
    rfl (by decide) rfl (by decide)
  simpa using h

/-!
Claim C7: a finish with a terminal state but no failure entry.
-/

/-- Claim C7, failing input. The claim (and the protocol table) make the
failure entry of a finish message optional, and session_finish itself
defaults it to None; but tasks.py 544 indexes msg data at failure
unconditionally, so a finish carrying the terminal state FINISHED and no
failure raises KeyError: the terminal write for FINISHED is never sent, the
except branch writes FAILED with the exception text instead, and run_plugin
returns FAILED. -/
theorem c7_code_bug_eval :
    "FINISHED" ∈ terminalStates ∧
    run_plugin (some exampleScan) "s1" "h" [Msg.finish "FINISHED" FailureField.absent] =
      ([StateWrite.session_start "sc" "s1",
        StateWrite.session_finish "sc" "s1" "FAILED"
          (some { hostname := "h", message := "KeyError: failure",
                  exception := some "KeyError: failure" })],
       some "FAILED") := by decide

/-!
Claim C10: a finish whose state is not terminal.
-/

/-- Claim C10, counterexample. The claim says the synthesised-FAILED fallback
is skipped for every invalid finish state because a finish was observed; but
the fallback guard is if not finished, which the empty string fails too: a
finish carrying the empty state (not in the terminal set) still triggers the
synthesised FAILED terminal write, so the session does receive a terminal
state from the runner. -/
theorem c10_counterexample :
    "" ∉ terminalStates ∧
    run_plugin (some exampleScan) "s1" "h" [Msg.finish "" FailureField.null] =
      ([StateWrite.session_start "sc" "s1",
        StateWrite.session_finish "sc" "s1" "FAILED"
          (some { hostname := "h",
                  message := "The plugin did not finish correctly",
                  exception := none }),
        StateWrite.set_status_issues "sc"],
       some "") := by decide

/-- Claim C10, amended: when the first finish message carries a non-empty
state outside the terminal set and is the child's last message, no terminal
session write is sent for it, the synthesised-FAILED fallback is skipped
because finished holds the non-empty string, so the session receives no
terminal state from the runner at all, and run_plugin returns the invalid
state string. -/
theorem c10_amended (sc : ScanRec) (sess : Session) (sid hostname : String)
    (pre : List Msg) (st : String) (fl : FailureField) (ws : List StateWrite)
    (hscan : sc.state = "STARTED")
    (hfind : find_session sc sid = some sess)
    (hq : sess.state = "QUEUED")
    (hpre : processMessages sc.id sid pre none = (ws, .completed none))
    (hst : st ∉ terminalStates) (hne : st ≠ "") :
    run_plugin (some sc) sid hostname (pre ++ [Msg.finish st fl]) =
      (StateWrite.session_start sc.id sid :: ws ++ [StateWrite.set_status_issues sc.id],
       some st) ∧
    ∀ a b s f, StateWrite.session_finish a b s f ∉
      (run_plugin (some sc) sid hostname (pre ++ [Msg.finish st fl])).1 := by
  have happ := processMessages_append sc.id sid pre [Msg.finish st fl] none ws none hpre
  have hrest : processMessages sc.id sid [Msg.finish st fl] none =
      ([], .completed (some st)) := by
    simp [processMessages, hst]
  rw [hrest] at happ
  simp only [List.append_nil] at happ
  have hws := processMessages_completed_none_writes sc.id sid pre ws hpre
  have hne2 : ¬ ((some st : Option String) = none ∨ (some st : Option String) = some "") := by
    simp [hne]
  constructor
  · simp [run_plugin, hscan, hfind, hq, happ, hne2, hne]
  · intro a b s f
    simp only [run_plugin, hscan, hfind, hq, happ]
    simp [hne2, hne, hws a b s f]

/-- Claim C10, witness for the amended theorem: a finish with the state
BANANA and an absent failure entry (never read, since the state is not
terminal) after one issue message leaves only the start, the issue report
and the correlator trigger, and the task returns BANANA. -/
theorem c10_amended_witness :
    run_plugin (some exampleScan) "s1" "h"
        [Msg.issue "d", Msg.finish "BANANA" FailureField.absent] =
      ([StateWrite.session_start "sc" "s1",
        StateWrite.session_report_issue "sc" "s1" "d",
        StateWrite.set_status_issues "sc"],
       some "BANANA") := by
  have h := (c10_amended exampleScan
    { id := "s1", plugin := { name := "a" }, state := "QUEUED" }
    "s1" "h" [Msg.issue "d"] "BANANA" FailureField.absent
    [StateWrite.session_report_issue "sc" "s1" "d"]
    rfl (by decide) rfl (by decide) (by decide) (by decide)).1
  simpa using h

/-!
Claim C1: the fix-detection pass of the correlator.
-/

/-- Latest-scan sessions for the C1 failing input: the plugin a session
finished cleanly and references nothing; a second plugin b session failed. -/
def c1LatestSessions : List Session :=
  [{ id := "l1", plugin := { name := "a" }, state := "FINISHED", issues := [] },
   { id := "l2", plugin := { name := "b" }, state := "FAILED", issues := [] }]

/-- Previous-scan sessions for the C1 failing input: the plugin a session
referenced issue X. -/
def c1PrevSessions : List Session :=
  [{ id := "p1", plugin := { name := "a" }, state := "FINISHED", issues := ["X"] }]

/-- Issues collection for the C1 failing input. -/
def c1db : IssueDB := fun i =>
  if i = "X" then { Status := "Current", OldStatus := "-" }
  else { Status := "-", OldStatus := "-" }

/-- Claim C1, evaluation at the failing input. The session l of the latest
scan running plugin a exists, ended FINISHED, and does not reference the
previous scan's issue X, so the claim demands Status Fixed; the code does
attach the reference to l, but it decides the status from the leaked inner
loop variable, which after a completed loop is the final session of the
latest scan (here the FAILED plugin b session, never the matched one), so X
keeps Status Current instead of Fixed. -/
theorem c1_code_bug_eval :
    c1LatestSessions.find? (fun s => s.plugin.name == "a") =
      some { id := "l1", plugin := { name := "a" }, state := "FINISHED", issues := [] } ∧
    (set_status_issues c1LatestSessions c1PrevSessions c1db).1.map Session.issues =
      [["X"], []] ∧
    (set_status_issues c1LatestSessions c1PrevSessions c1db).2 "X" =
      { Status := "Current", OldStatus := "Current" } ∧
    ((set_status_issues c1LatestSessions c1PrevSessions c1db).2 "X").Status ≠ "Fixed" := by
  decide

/-!
Claim C4: idempotence of the correlator.
-/

/-- Latest-scan sessions for the C4 counterexample. -/
def c4LatestSessions : List Session :=
  [{ id := "l1", plugin := { name := "a" }, state := "FINISHED", issues := ["A"] }]

/-- Previous-scan sessions for the C4 counterexample. -/
def c4PrevSessions : List Session :=
  [{ id := "p1", plugin := { name := "a" }, state := "FINISHED", issues := ["A", "B"] }]

/-- Issues collection for the C4 counterexample. -/
def c4db : IssueDB := fun i =>
  if i = "A" then { Status := "Ignored", OldStatus := "-" }
  else if i = "B" then { Status := "Current", OldStatus := "-" }
  else { Status := "-", OldStatus := "-" }

/-- Claim C4, counterexample. Running the correlator twice on the same
latest and previous scans is not a fixpoint for the statuses: the first run
re-attaches issue B to the latest scan and marks it Fixed with OldStatus
Current; the second run sees the pushed reference in the latest scan during
its classification pass and remarks B Current with OldStatus Fixed. -/
theorem c4_counterexample :
    (set_status_issues c4LatestSessions c4PrevSessions c4db).2 "B" =
      { Status := "Fixed", OldStatus := "Current" } ∧
    (set_status_issues (set_status_issues c4LatestSessions c4PrevSessions c4db).1
        c4PrevSessions
        (set_status_issues c4LatestSessions c4PrevSessions c4db).2).2 "B" =
      { Status := "Current", OldStatus := "Fixed" } ∧
    (set_status_issues (set_status_issues c4LatestSessions c4PrevSessions c4db).1
        c4PrevSessions
        (set_status_issues c4LatestSessions c4PrevSessions c4db).2).2 "B" ≠
      (set_status_issues c4LatestSessions c4PrevSessions c4db).2 "B" := by
  decide

/-!
Infrastructure for the amended claim C4. Across the correlator a session of
the latest scan only gains issue references (the pushes append and change no
other field), and after one full run every issue of the previous scan that
has a matching session in the latest scan is referenced by such a session,
so the fix-detection pass of a second run finds every issue and pushes
nothing.
-/

/-- A session may gain issue references across the correlator but keeps its
id, plugin and state. -/
def Grows (a b : Session) : Prop :=
  a.id = b.id ∧ a.plugin = b.plugin ∧ a.state = b.state ∧ a.issues ⊆ b.issues

/-- Pointwise growth of the latest scan's session list. -/
def GrowsL (l1 l2 : List Session) : Prop := List.Forall₂ Grows l1 l2

theorem growsRefl (a : Session) : Grows a a :=
  ⟨rfl, rfl, rfl, List.Subset.refl _⟩

theorem growsTrans {a b c : Session} (h1 : Grows a b) (h2 : Grows b c) :
    Grows a c :=
  ⟨h1.1.trans h2.1, h1.2.1.trans h2.2.1, h1.2.2.1.trans h2.2.2.1,
   h1.2.2.2.trans h2.2.2.2⟩

theorem growsLRefl (l : List Session) : GrowsL l l :=
  List.forall₂_same.mpr (fun a _ => growsRefl a)

theorem growsLTrans : ∀ {l1 l2 l3 : List Session},
    GrowsL l1 l2 → GrowsL l2 l3 → GrowsL l1 l3 := by
  intro l1 l2 l3 h1
  induction h1 generalizing l3 with
  | nil =>
    intro h2
    cases h2
    exact List.Forall₂.nil
  | cons hab htail ih =>
    intro h2
    cases h2 with
    | cons hbc h2 => exact List.Forall₂.cons (growsTrans hab hbc) (ih h2)

theorem forall₂_updateFirst {R : Session → Session → Prop}
    (p : Session → Bool) (f : Session → Session)
    (hf : ∀ a b, R a b → R a (f b)) :
    ∀ {l cur : List Session}, List.Forall₂ R l cur →
      List.Forall₂ R l (updateFirst p f cur) := by
  intro l cur h
  induction h with
  | nil => exact List.Forall₂.nil
  | cons hab htail ih =>
    rename_i a b as bs
    by_cases hp : p b = true
    · simp only [updateFirst, if_pos hp]
      exact List.Forall₂.cons (hf _ _ hab) htail
    · simp only [updateFirst, if_neg hp]
      exact List.Forall₂.cons hab ih

theorem forall₂_mem_left {R : Session → Session → Prop} :
    ∀ {l1 l2 : List Session}, List.Forall₂ R l1 l2 →
      ∀ {a}, a ∈ l1 → ∃ b ∈ l2, R a b := by
  intro l1 l2 h
  induction h with
  | nil => intro a ha; cases ha
  | cons hab htail ih =>
    intro x hx
    rcases List.mem_cons.mp hx with rfl | hx
    · exact ⟨_, by simp, hab⟩
    · obtain ⟨b, hb, hrb⟩ := ih hx
      exact ⟨b, by simp [hb], hrb⟩

theorem forall₂_mem_right {R : Session → Session → Prop} :
    ∀ {l1 l2 : List Session}, List.Forall₂ R l1 l2 →
      ∀ {b}, b ∈ l2 → ∃ a ∈ l1, R a b := by
  intro l1 l2 h
  induction h with
  | nil => intro b hb; cases hb
  | cons hab htail ih =>
    intro x hx
    rcases List.mem_cons.mp hx with rfl | hx
    · exact ⟨_, by simp, hab⟩
    · obtain ⟨a, ha, hra⟩ := ih hx
      exact ⟨a, by simp [ha], hra⟩

theorem growsL_map_id : ∀ {l cur : List Session}, GrowsL l cur →
    l.map Session.id = cur.map Session.id := by
  intro l cur h
  induction h with
  | nil => rfl
  | cons hab htail ih => simp [hab.1, ih]

theorem foldl_fixSearchStep_found (pn i : String) :
    ∀ (L : List Session) (acc : FixSearch), acc.issue_found = true →
      L.foldl (fixSearchStep pn i) acc = acc := by
  intro L
  induction L with
  | nil => intro acc _; rfl
  | cons s L ih =>
    intro acc h
    have hstep : fixSearchStep pn i acc s = acc := by
      simp [fixSearchStep, h]
    rw [List.foldl_cons, hstep, ih acc h]

theorem fixSearch_found_exists (pn i : String) :
    ∀ (L : List Session) (acc : FixSearch),
      (L.foldl (fixSearchStep pn i) acc).issue_found = true →
      acc.issue_found = true ∨ ∃ s ∈ L, s.plugin.name = pn ∧ i ∈ s.issues := by
  intro L
  induction L with
  | nil => intro acc h; exact Or.inl h
  | cons s L ih =>
    intro acc h
    rw [List.foldl_cons] at h
    rcases ih _ h with h1 | h2
    · by_cases hf : acc.issue_found = true
      · exact Or.inl hf
      · by_cases hm : s.plugin.name = pn
        · by_cases hi : i ∈ s.issues
          · exact Or.inr ⟨s, by simp, hm, hi⟩
          · simp [fixSearchStep, hf, hm, hi] at h1
        · simp [fixSearchStep, hf, hm] at h1
    · obtain ⟨t, ht, hprop⟩ := h2
      exact Or.inr ⟨t, by simp [ht], hprop⟩

theorem fixSearch_exists_found (pn i : String) :
    ∀ (L : List Session) (acc : FixSearch),
      (∃ s ∈ L, s.plugin.name = pn ∧ i ∈ s.issues) →
      (L.foldl (fixSearchStep pn i) acc).issue_found = true := by
  intro L
  induction L with
  | nil =>
    intro acc h
    obtain ⟨s, hs, _⟩ := h
    cases hs
  | cons s L ih =>
    intro acc h
    rw [List.foldl_cons]
    by_cases hf : acc.issue_found = true
    · have hstep : fixSearchStep pn i acc s = acc := by
        simp [fixSearchStep, hf]
      rw [hstep, foldl_fixSearchStep_found pn i L acc hf]
      exact hf
    · obtain ⟨t, ht, htm, hti⟩ := h
      rcases List.mem_cons.mp ht with rfl | htL
      · have hstep : fixSearchStep pn i acc t =
            { issue_found := true, last_session_id := some t.id, loopVar := some t } := by
          simp [fixSearchStep, hf, htm, hti]
        rw [hstep, foldl_fixSearchStep_found pn i L _ rfl]
      · exact ih _ ⟨t, htL, htm, hti⟩

theorem fixSearch_lsid_exists (pn i : String) :
    ∀ (L : List Session) (acc : FixSearch) (l : String),
      (L.foldl (fixSearchStep pn i) acc).last_session_id = some l →
      acc.last_session_id = some l ∨ ∃ s ∈ L, s.id = l ∧ s.plugin.name = pn := by
  intro L
  induction L with
  | nil => intro acc l h; exact Or.inl h
  | cons s L ih =>
    intro acc l h
    rw [List.foldl_cons] at h
    rcases ih _ l h with h1 | h2
    · by_cases hf : acc.issue_found = true
      · have hstep : fixSearchStep pn i acc s = acc := by
          simp [fixSearchStep, hf]
        rw [hstep] at h1
        exact Or.inl h1
      · by_cases hm : s.plugin.name = pn
        · by_cases hi : i ∈ s.issues
          · simp [fixSearchStep, hf, hm, hi] at h1
            exact Or.inr ⟨s, by simp, h1, hm⟩
          · simp [fixSearchStep, hf, hm, hi] at h1
            exact Or.inr ⟨s, by simp, h1, hm⟩
        · simp [fixSearchStep, hf, hm] at h1
          exact Or.inl h1
    · obtain ⟨t, ht, hprop⟩ := h2
      exact Or.inr ⟨t, by simp [ht], hprop⟩

theorem fixSearch_lsid_isSome (pn i : String) :
    ∀ (L : List Session) (acc : FixSearch),
      acc.last_session_id.isSome = true →
      ((L.foldl (fixSearchStep pn i) acc).last_session_id).isSome = true := by
  intro L
  induction L with
  | nil => intro acc h; exact h
  | cons s L ih =>
    intro acc h
    rw [List.foldl_cons]
    refine ih _ ?_
    by_cases hf : acc.issue_found = true
    · simpa [fixSearchStep, hf] using h
    · by_cases hm : s.plugin.name = pn
      · by_cases hi : i ∈ s.issues
        · simp [fixSearchStep, hf, hm, hi]
        · simp [fixSearchStep, hf, hm, hi]
      · simpa [fixSearchStep, hf, hm] using h

theorem fixSearch_match_lsid_isSome (pn i : String) :
    ∀ (L : List Session) (acc : FixSearch),
      (acc.issue_found = true → acc.last_session_id.isSome = true) →
      (∃ s ∈ L, s.plugin.name = pn) →
      ((L.foldl (fixSearchStep pn i) acc).last_session_id).isSome = true := by
  intro L
  induction L with
  | nil =>
    intro acc _ h
    obtain ⟨s, hs, _⟩ := h
    cases hs
  | cons s L ih =>
    intro acc hinv h
    rw [List.foldl_cons]
    by_cases hf : acc.issue_found = true
    · have hstep : fixSearchStep pn i acc s = acc := by
        simp [fixSearchStep, hf]
      rw [hstep, foldl_fixSearchStep_found pn i L acc hf]
      exact hinv hf
    · obtain ⟨t, ht, htm⟩ := h
      rcases List.mem_cons.mp ht with rfl | htL
      · refine fixSearch_lsid_isSome pn i L _ ?_
        by_cases hi : i ∈ t.issues
        · simp [fixSearchStep, hf, htm, hi]
        · simp [fixSearchStep, hf, htm, hi]
      · refine ih _ ?_ ⟨t, htL, htm⟩
        intro hfound
        by_cases hm : s.plugin.name = pn
        · by_cases hi : i ∈ s.issues
          · simp [fixSearchStep, hf, hm, hi]
          · simp [fixSearchStep, hf, hm, hi]
        · simp [fixSearchStep, hf, hm] at hfound

theorem fixSearch_lsid_no_match (pn i : String) :
    ∀ (L : List Session) (acc : FixSearch),
      acc.issue_found = false →
      (∀ s ∈ L, s.plugin.name ≠ pn) →
      (L.foldl (fixSearchStep pn i) acc).last_session_id = acc.last_session_id := by
  intro L
  induction L with
  | nil => intro acc _ _; rfl
  | cons s L ih =>
    intro acc hf hno
    rw [List.foldl_cons]
    have hm := hno s (by simp)
    have hstep : fixSearchStep pn i acc s = { acc with loopVar := some s } := by
      simp [fixSearchStep, hf, hm]
    rw [hstep]
    exact ih _ (by simpa using hf) (fun t ht => hno t (by simp [ht]))

theorem mem_updateFirst_push (i l : String) :
    ∀ (cur : List Session) (s : Session), s ∈ cur → s.id = l →
      (cur.map Session.id).Nodup →
      { s with issues := s.issues ++ [i] } ∈
        updateFirst (fun x => x.id == l)
          (fun x => { x with issues := x.issues ++ [i] }) cur := by
  intro cur
  induction cur with
  | nil => intro s hs; cases hs
  | cons a cur ih =>
    intro s hs hid hnd
    simp only [List.map_cons, List.nodup_cons] at hnd
    rcases List.mem_cons.mp hs with rfl | hsc
    · have hp : (s.id == l) = true := by simp [hid]
      simp [updateFirst, hp]
    · have hane : a.id ≠ l := by
        intro he
        refine hnd.1 ?_
        rw [he, ← hid]
        exact List.mem_map_of_mem Session.id hsc
      have hp : (a.id == l) = false := by simp [hane]
      simp only [updateFirst, hp, Bool.false_eq_true, if_false]
      exact List.mem_cons_of_mem a (ih s hsc hid hnd.2)

/-- The fix-detection pass visits the plugin name and issue pairs of the
previous scan in this order. -/
def fixPairs (P : List Session) : List (String × String) :=
  P.flatMap (fun s2 => s2.issues.map (fun i => (s2.plugin.name, i)))

theorem detectFixPass_eq_pairs (Lsnap : List Session) :
    ∀ (P : List Session) (st : List Session × IssueDB),
      detectFixPass Lsnap P st =
        (fixPairs P).foldl (fun st2 pr => detectFixIssue Lsnap pr.1 st2 pr.2) st := by
  intro P
  induction P with
  | nil => intro st; rfl
  | cons s2 P ih =>
    intro st
    have hLHS : detectFixPass Lsnap (s2 :: P) st =
        detectFixPass Lsnap P
          (s2.issues.foldl (detectFixIssue Lsnap s2.plugin.name) st) := by
      simp [detectFixPass]
    rw [hLHS, ih]
    simp [fixPairs, List.foldl_append, List.foldl_map]

theorem detectFixIssue_grows (Lsnap : List Session) (pn : String)
    (st : List Session × IssueDB) (i : String) :
    GrowsL st.1 (detectFixIssue Lsnap pn st i).1 := by
  have hpush : ∀ a b, Grows a b →
      Grows a { b with issues := b.issues ++ [i] } := by
    intro a b hab
    exact ⟨hab.1, hab.2.1, hab.2.2.1,
      hab.2.2.2.trans (List.subset_append_left _ _)⟩
  rcases hl : (fixSearch pn i Lsnap).last_session_id with _ | l
  · have heq : detectFixIssue Lsnap pn st i = st := by
      simp only [detectFixIssue, hl]
    rw [heq]
    exact growsLRefl st.1
  · by_cases hf : (fixSearch pn i Lsnap).issue_found = true
    · have heq : detectFixIssue Lsnap pn st i = st := by
        simp only [detectFixIssue, hl, hf, if_true]
      rw [heq]
      exact growsLRefl st.1
    · have heq : (detectFixIssue Lsnap pn st i).1 =
          updateFirst (fun s => s.id == l)
            (fun s => { s with issues := s.issues ++ [i] }) st.1 := by
        simp only [detectFixIssue, hl, hf, Bool.false_eq_true, if_false]
      rw [heq]
      exact forall₂_updateFirst _ _ hpush (growsLRefl st.1)

theorem foldPairs_grows (Lsnap : List Session) :
    ∀ (ps : List (String × String)) (st : List Session × IssueDB),
      GrowsL st.1
        ((ps.foldl (fun st2 pr => detectFixIssue Lsnap pr.1 st2 pr.2) st).1) := by
  intro ps
  induction ps with
  | nil => intro st; exact growsLRefl st.1
  | cons pr ps ih =>
    intro st
    rw [List.foldl_cons]
    exact growsLTrans (detectFixIssue_grows Lsnap pr.1 st pr.2) (ih _)

/-- After processing, a plugin name and issue pair of the previous scan is
settled with respect to the latest-scan sessions cur: either some session of
cur runs the plugin and references the issue, or the snapshot L has no
session running the plugin at all. -/
def SettledPair (L cur : List Session) (pr : String × String) : Prop :=
  (∃ s ∈ cur, s.plugin.name = pr.1 ∧ pr.2 ∈ s.issues) ∨
    ¬ ∃ s ∈ L, s.plugin.name = pr.1

theorem settled_mono {L cur cur' : List Session} (h : GrowsL cur cur')
    (pr : String × String) (hs : SettledPair L cur pr) :
    SettledPair L cur' pr := by
  rcases hs with ⟨s, hsm, hm, hi⟩ | hno
  · obtain ⟨b, hb, hg⟩ := forall₂_mem_left h hsm
    refine Or.inl ⟨b, hb, ?_, hg.2.2.2 hi⟩
    rw [← hg.2.1]
    exact hm
  · exact Or.inr hno

theorem foldPairs_settles (L : List Session)
    (hnd : (L.map Session.id).Nodup) :
    ∀ (ps : List (String × String)) (st : List Session × IssueDB),
      GrowsL L st.1 →
      ∀ pr ∈ ps,
        SettledPair L
          ((ps.foldl (fun st2 pr2 => detectFixIssue L pr2.1 st2 pr2.2) st).1)
          pr := by
  intro ps
  induction ps with
  | nil =>
    intro st _ pr hpr
    cases hpr
  | cons pr0 ps ih =>
    intro st hG pr hpr
    rw [List.foldl_cons]
    have hG1 : GrowsL L (detectFixIssue L pr0.1 st pr0.2).1 :=
      growsLTrans hG (detectFixIssue_grows L pr0.1 st pr0.2)
    rcases List.mem_cons.mp hpr with rfl | hpr2
    · have hset : SettledPair L (detectFixIssue L pr.1 st pr.2).1 pr := by
        rcases hl : (fixSearch pr.1 pr.2 L).last_session_id with _ | l
        · refine Or.inr ?_
          rintro ⟨s, hs, hm⟩
          have hsome := fixSearch_match_lsid_isSome pr.1 pr.2 L
            { issue_found := false, last_session_id := none, loopVar := none }
            (by intro h; cases h) ⟨s, hs, hm⟩
          rw [show (L.foldl (fixSearchStep pr.1 pr.2)
              { issue_found := false, last_session_id := none, loopVar := none }) =
              fixSearch pr.1 pr.2 L from rfl, hl] at hsome
          cases hsome
        · by_cases hf : (fixSearch pr.1 pr.2 L).issue_found = true
          · rcases fixSearch_found_exists pr.1 pr.2 L
              { issue_found := false, last_session_id := none, loopVar := none }
              hf with h1 | ⟨s, hs, hm, hi⟩
            · cases h1
            · obtain ⟨b, hb, hgr⟩ := forall₂_mem_left hG hs
              have heq : detectFixIssue L pr.1 st pr.2 = st := by
                simp only [detectFixIssue, hl, hf, if_true]
              rw [heq]
              refine Or.inl ⟨b, hb, ?_, hgr.2.2.2 hi⟩
              rw [← hgr.2.1]
              exact hm
          · rcases fixSearch_lsid_exists pr.1 pr.2 L
              { issue_found := false, last_session_id := none, loopVar := none }
              l hl with h1 | ⟨s, hs, hsid, hm⟩
            · cases h1
            · obtain ⟨b, hb, hgr⟩ := forall₂_mem_left hG hs
              have hbid : b.id = l := by
                rw [← hgr.1]
                exact hsid
              have hnd2 : (st.1.map Session.id).Nodup := by
                rw [← growsL_map_id hG]
                exact hnd
              have hpush := mem_updateFirst_push pr.2 l st.1 b hb hbid hnd2
              have heq : (detectFixIssue L pr.1 st pr.2).1 =
                  updateFirst (fun x => x.id == l)
                    (fun x => { x with issues := x.issues ++ [pr.2] }) st.1 := by
                simp only [detectFixIssue, hl, hf, Bool.false_eq_true, if_false]
              rw [heq]
              refine Or.inl ⟨{ b with issues := b.issues ++ [pr.2] }, hpush, ?_, by simp⟩
              simp only
              rw [← hgr.2.1]
              exact hm
      exact settled_mono (foldPairs_grows L ps _) pr hset
    · exact ih _ hG1 pr hpr2

theorem detectFixIssue_identity (L cur : List Session) (db : IssueDB)
    (pr : String × String) (hG : GrowsL L cur)
    (hs : SettledPair L cur pr) :
    detectFixIssue cur pr.1 (cur, db) pr.2 = (cur, db) := by
  rcases hs with ⟨s, hsmem, hm, hi⟩ | hno
  · have hf : (fixSearch pr.1 pr.2 cur).issue_found = true :=
      fixSearch_exists_found pr.1 pr.2 cur
        { issue_found := false, last_session_id := none, loopVar := none }
        ⟨s, hsmem, hm, hi⟩
    rcases hl : (fixSearch pr.1 pr.2 cur).last_session_id with _ | l
    · simp only [detectFixIssue, hl]
    · simp only [detectFixIssue, hl, hf, if_true]
  · have hnoc : ∀ t ∈ cur, t.plugin.name ≠ pr.1 := by
      intro t htmem he
      obtain ⟨a, ha, hgr⟩ := forall₂_mem_right hG htmem
      refine hno ⟨a, ha, ?_⟩
      rw [hgr.2.1]
      exact he
    have hl : (fixSearch pr.1 pr.2 cur).last_session_id = none :=
      fixSearch_lsid_no_match pr.1 pr.2 cur
        { issue_found := false, last_session_id := none, loopVar := none }
        rfl hnoc
    simp only [detectFixIssue, hl]

theorem foldPairs_identity (L cur : List Session) (db : IssueDB)
    (hG : GrowsL L cur) :
    ∀ (ps : List (String × String)),
      (∀ pr ∈ ps, SettledPair L cur pr) →
      ps.foldl (fun st2 pr2 => detectFixIssue cur pr2.1 st2 pr2.2) (cur, db) =
        (cur, db) := by
  intro ps
  induction ps with
  | nil => intro _; rfl
  | cons pr ps ih =>
    intro h
    rw [List.foldl_cons, detectFixIssue_identity L cur db pr hG (h pr (by simp))]
    exact ih (fun pr2 hpr2 => h pr2 (by simp [hpr2]))

/-- Claim C4, amended: a second run of the correlator on the same latest and
previous scans leaves the session issue references untouched (its
fix-detection pass finds every issue already referenced and pushes nothing),
but it does not reproduce the issue statuses: its classification pass
remarks every issue the latest scan now references, including the ones the
first run re-attached as Fixed, as Current with OldStatus the then-current
Status. The session ids of the latest scan are assumed distinct, as the
workflow creates them. -/
theorem c4_amended (L P : List Session) (db : IssueDB)
    (hnd : (L.map Session.id).Nodup) :
    (set_status_issues (set_status_issues L P db).1 P
        (set_status_issues L P db).2).1 =
      (set_status_issues L P db).1 := by
  have h1 : set_status_issues L P db =
      (fixPairs P).foldl (fun st2 pr => detectFixIssue L pr.1 st2 pr.2)
        (L, classifyPass L P db) := by
    rw [set_status_issues, detectFixPass_eq_pairs]
  have hG1 : GrowsL L (set_status_issues L P db).1 := by
    rw [h1]
    exact foldPairs_grows L (fixPairs P) (L, classifyPass L P db)
  have hset : ∀ pr ∈ fixPairs P,
      SettledPair L (set_status_issues L P db).1 pr := by
    rw [h1]
    exact foldPairs_settles L hnd (fixPairs P) (L, classifyPass L P db)
      (growsLRefl L)
  have h2 : set_status_issues (set_status_issues L P db).1 P
        (set_status_issues L P db).2 =
      (fixPairs P).foldl
        (fun st2 pr => detectFixIssue (set_status_issues L P db).1 pr.1 st2 pr.2)
        ((set_status_issues L P db).1,
         classifyPass (set_status_issues L P db).1 P (set_status_issues L P db).2) := by
    rw [set_status_issues, detectFixPass_eq_pairs]
  rw [h2, foldPairs_identity L (set_status_issues L P db).1
    (classifyPass (set_status_issues L P db).1 P (set_status_issues L P db).2)
    hG1 (fixPairs P) hset]

/-- Claim C4, witness for the amended theorem at the counterexample input:
the second run leaves the session issue references of the first run in
place. -/
theorem c4_amended_witness :
    (c4LatestSessions.map Session.id).Nodup ∧
    (set_status_issues (set_status_issues c4LatestSessions c4PrevSessions c4db).1
        c4PrevSessions
        (set_status_issues c4LatestSessions c4PrevSessions c4db).2).1 =
      (set_status_issues c4LatestSessions c4PrevSessions c4db).1 :=
  ⟨by decide, c4_amended c4LatestSessions c4PrevSessions c4db (by decide)⟩

end Minion
